/-
  Verification of the TypeCheck constraint engine of the TapAssert repository.

  The definitions below are a shallow embedding of the TypeScript source in
  src/src/TapAssert.test.ts (the part after the module separator, i.e. the
  TypeCheck module: TypeConstraint and its Number/String/Object/Array
  variants, parseConstraints, eachListParse, constraintListParse,
  parseCheckType, checkTypeFromString, valueTypeFromString,
  stringFromValueType, validate, and the helper isTruthy).

  Modelling conventions:
  * JS numbers are modelled as exact fractions (structure JQ: an Int
    numerator and a positive Nat denominator, not necessarily reduced) plus
    a distinguished NaN (inductive JNum).  The claims only exercise decimal
    literals, so this is exact on every reachable value.
  * JS strings are Lean Strings; the handful of JS string methods the source
    uses (trim, substring, indexOf, split, charAt, toLowerCase, replace)
    are re-implemented below with JS semantics (substring clamps and swaps
    its arguments, indexOf returns -1, split of "" is [""], ...).
  * Thrown ConstraintError values are modelled as `Except String Unit` with
    the error's `.message` string; `validate` catches them exactly as the
    source does.
  * The while-loop of ArrayConstraint.test can fail to terminate (this is
    one of the findings below), so it is given a step budget (`lf` fuel) and
    returns `Option`: `none` means the budget ran out.  "Diverges" is then
    stated as: the result is `none` for every budget.
  * `Math.random` is modelled as an injected stream `rnd : Nat -> JQ` of
    draws in [0,1), as the spec's design notes request.
-/
import Mathlib

set_option maxRecDepth 10000

/-- A JS finite number modelled as an exact fraction num/den.
`den` is kept positive by every constructor below; the representation is not
necessarily reduced, so value equality is `jqEqv`, not structural equality. -/
structure JQ where
  num : Int
  den : Nat
  deriving DecidableEq, Repr

/-- Embed an Int as a JQ. -/
def jqI (n : Int) : JQ := ⟨n, 1⟩

/-- Embed a Nat as a JQ. -/
def jqN (n : Nat) : JQ := ⟨(n : Int), 1⟩

/-- Value comparison a < b (dens are positive, so cross-multiply). -/
def jqLt (a b : JQ) : Bool := decide (a.num * (b.den : Int) < b.num * (a.den : Int))

/-- Value comparison a ≤ b. -/
def jqLe (a b : JQ) : Bool := decide (a.num * (b.den : Int) ≤ b.num * (a.den : Int))

/-- Value equality of two fractions. -/
def jqEqv (a b : JQ) : Bool := decide (a.num * (b.den : Int) = b.num * (a.den : Int))

def jqAdd (a b : JQ) : JQ := ⟨a.num * (b.den : Int) + b.num * (a.den : Int), a.den * b.den⟩

def jqSub (a b : JQ) : JQ := ⟨a.num * (b.den : Int) - b.num * (a.den : Int), a.den * b.den⟩

def jqMul (a b : JQ) : JQ := ⟨a.num * b.num, a.den * b.den⟩

/-- Math.floor on a JS number (floor division, so -1.5 floors to -2). -/
def jqFloor (a : JQ) : Int := a.num.fdiv (a.den : Int)

/-- A JS number: NaN or a finite fraction.  (The source never produces
infinities on the paths modelled here.) -/
inductive JNum where
  | nan
  | v (q : JQ)
  deriving DecidableEq, Repr

/-- `a < b` with JS NaN semantics: any comparison with NaN is false. -/
def jnLt (a b : JNum) : Bool :=
  match a, b with
  | JNum.v x, JNum.v y => jqLt x y
  | _, _ => false

/-- `a > b` with JS NaN semantics. -/
def jnGt (a b : JNum) : Bool :=
  match a, b with
  | JNum.v x, JNum.v y => jqLt y x
  | _, _ => false

/-- `a >= b` with JS NaN semantics. -/
def jnGe (a b : JNum) : Bool :=
  match a, b with
  | JNum.v x, JNum.v y => jqLe y x
  | _, _ => false

/-- Strict equality `a === b` on numbers: false whenever either side is NaN. -/
def jnStrictEq (a b : JNum) : Bool :=
  match a, b with
  | JNum.v x, JNum.v y => jqEqv x y
  | _, _ => false

def jnAdd (a b : JNum) : JNum :=
  match a, b with
  | JNum.v x, JNum.v y => JNum.v (jqAdd x y)
  | _, _ => JNum.nan

def jnSub (a b : JNum) : JNum :=
  match a, b with
  | JNum.v x, JNum.v y => JNum.v (jqSub x y)
  | _, _ => JNum.nan

/-- The source's isTruthy applied to a JS number.  The source reads
`if (value === null || value === undefined || value === '' || value === false)
return false; return true` -- a number (including 0 and NaN) is none of
those four values, so isTruthy of any number is true.  This constant-true
fact is load-bearing: it makes the `else` (random-pick) branch of the array
traversal's step update unreachable, since `step` is always a number. -/
def jsIsTruthyNum (_ : JNum) : Bool := true

/-- Whitespace for the purposes of String.prototype.trim (the source's
inputs only ever contain these four). -/
def wsp (c : Char) : Bool := c = ' ' ∨ c = '\t' ∨ c = '\n' ∨ c = '\r'

/-- JS String.prototype.trim. -/
def jsTrim (s : String) : String :=
  String.mk (((s.data.dropWhile wsp).reverse.dropWhile wsp).reverse)

/-- JS String.prototype.toLowerCase (ASCII, which covers every keyword). -/
def jsToLower (s : String) : String :=
  String.mk (s.data.map Char.toLower)

/-- List-of-chars prefix test. -/
def lcPre : List Char → List Char → Bool
  | [], _ => true
  | _ :: _, [] => false
  | a :: x, b :: y => a = b && lcPre x y

/-- Scan helper for indexOf: absolute index of the first occurrence of
`pat` at position ≥ i. -/
def idxAux (pat : List Char) : List Char → Nat → Option Nat
  | [], i => if lcPre pat [] then Option.some i else Option.none
  | c :: r, i => if lcPre pat (c :: r) then Option.some i else idxAux pat r (i + 1)

/-- JS String.prototype.indexOf(pat, start): the absolute index of the first
occurrence at position ≥ start, or -1. -/
def jsIndexOfS (s pat : String) (start : Nat) : Int :=
  match idxAux pat.data (s.data.drop start) start with
  | Option.some i => (i : Int)
  | Option.none => -1

/-- JS String.prototype.includes for a single character. -/
def strContainsCh (s : String) (c : Char) : Bool := s.data.any (fun x => x = c)

/-- JS String.prototype.includes for a substring. -/
def strContainsS (s pat : String) : Bool := jsIndexOfS s pat 0 ≠ -1

/-- JS String.prototype.substring(a, b): clamps both arguments into
[0, length] and swaps them when a > b. -/
def jsSubstringI (s : String) (a b : Int) : String :=
  let n : Int := (s.length : Int)
  let cl : Int → Int := fun x => if x < 0 then 0 else if x > n then n else x
  let a2 := cl a
  let b2 := cl b
  let lo := (min a2 b2).toNat
  let hi := (max a2 b2).toNat
  String.mk ((s.data.drop lo).take (hi - lo))

/-- JS String.prototype.charAt(i), as an Option Char ('' out of range). -/
def jsCharAtO (s : String) (i : Int) : Option Char :=
  if 0 ≤ i ∧ i < (s.length : Int) then (s.data.drop i.toNat).head? else Option.none

/-- Split a char list at every occurrence of c ("".split gives [""]). -/
def splitChAux (c : Char) : List Char → List (List Char)
  | [] => [[]]
  | x :: xs =>
    match splitChAux c xs with
    | [] => [[]]
    | h :: t => if x = c then [] :: h :: t else (x :: h) :: t

/-- JS String.prototype.split(c) for a one-character separator (the source
only splits on ',', '|' and '='). -/
def jsSplitChar (s : String) (c : Char) : List String :=
  (splitChAux c s.data).map String.mk

/-- `.replace(/,/g, ';;')` — every comma becomes the two-character sentinel. -/
def protectCommasLC : List Char → List Char
  | [] => []
  | c :: r => if c = ',' then ';' :: ';' :: protectCommasLC r else c :: protectCommasLC r

/-- `.replace(/;;/g, ',')` — every sentinel pair becomes a comma again. -/
def restoreCommasLC : List Char → List Char
  | [] => []
  | [c] => [c]
  | a :: b :: r =>
    if a = ';' ∧ b = ';' then ',' :: restoreCommasLC r
    else a :: restoreCommasLC (b :: r)

def jsProtectCommas (s : String) : String := String.mk (protectCommasLC s.data)

def jsRestoreCommas (s : String) : String := String.mk (restoreCommasLC s.data)

/-- Accumulate the value of a digit string. -/
def digitsVal : List Char → Int → Int
  | [], acc => acc
  | c :: r, acc => digitsVal r (acc * 10 + ((c.toNat : Int) - 48))

/-- JS parseInt (radix 10): skip whitespace, optional sign, leading digit
run; NaN when no digits.  (Hex prefixes never occur in this source.) -/
def parseIntJN (s : String) : JNum :=
  let l := s.data.dropWhile wsp
  let p : Int × List Char :=
    match l with
    | '-' :: r => (-1, r)
    | '+' :: r => (1, r)
    | _ => (1, l)
  let ds := p.2.takeWhile Char.isDigit
  if ds = [] then JNum.nan else JNum.v ⟨p.1 * digitsVal ds 0, 1⟩

/-- JS Number(string) for plain decimal literals: trimmed empty string is 0;
[sign] digits [ "." digits ] (either digit run may be empty but not both);
anything else is NaN.  Exponents/hex/Infinity do not occur in this source's
inputs. -/
def jsNumberJN (s : String) : JNum :=
  let t := jsTrim s
  if t = "" then JNum.v ⟨0, 1⟩
  else
    let p : Int × List Char :=
      match t.data with
      | '-' :: r => (-1, r)
      | '+' :: r => (1, r)
      | _ => (1, t.data)
    let ip := p.2.takeWhile Char.isDigit
    let rest := p.2.drop ip.length
    match rest with
    | [] => if ip = [] then JNum.nan else JNum.v ⟨p.1 * digitsVal ip 0, 1⟩
    | '.' :: fr =>
      let fd := fr.takeWhile Char.isDigit
      if fr.drop fd.length ≠ [] then JNum.nan
      else if ip = [] ∧ fd = [] then JNum.nan
      else JNum.v ⟨p.1 * (digitsVal ip 0 * ((10 : Nat) ^ fd.length : Nat) + digitsVal fd 0),
                   (10 : Nat) ^ fd.length⟩
    | _ => JNum.nan

/-- Fraction digits of r/d in base 10, stopping when the remainder is 0.
The budget 40 passed by jqToString covers every denominator this program
builds (powers of ten from decimal literals and their products). -/
def fracDigits (d : Nat) : Nat → Nat → String
  | _, 0 => ""
  | r, f + 1 =>
    if r = 0 then ""
    else toString ((r * 10) / d) ++ fracDigits d ((r * 10) % d) f

/-- JS Number.prototype.toString for the numbers this program prints:
integers print as integers, terminating decimals with their digits.
(True JS float printing is shortest-round-trip; on the exact decimal values
reachable here the two agree.) -/
def jqToString (q : JQ) : String :=
  if q.den = 0 then "NaN"
  else if q.num.emod (q.den : Int) = 0 then toString (q.num.fdiv (q.den : Int))
  else
    let sgn := if q.num < 0 then "-" else ""
    let a := q.num.natAbs
    sgn ++ toString (a / q.den) ++ "." ++ fracDigits q.den (a % q.den) 40

/-- Template interpolation of a possibly-NaN number. -/
def jnToString (j : JNum) : String :=
  match j with
  | JNum.nan => "NaN"
  | JNum.v q => jqToString q

/-- The source's custom isTruthy on a string value: only '' is falsy. -/
def jsTruthyStr (s : String) : Bool := if s = "" then false else true

/-- A JS runtime value, restricted to the plain data values the engine is
written for.  Objects are association lists of own properties in insertion
order (which is the order Object.getOwnPropertyNames reports for string
keys). -/
inductive JVal where
  | num (q : JQ)
  | str (s : String)
  | bool (b : Bool)
  | arr (xs : List JVal)
  | obj (props : List (String × JVal))
  | null
  | undef

/-- The JS typeof operator on the values of JVal. -/
def jsTypeof : JVal → String
  | JVal.num _ => "number"
  | JVal.str _ => "string"
  | JVal.bool _ => "boolean"
  | JVal.arr _ => "object"
  | JVal.obj _ => "object"
  | JVal.null => "object"
  | JVal.undef => "undefined"

/-- Array.isArray. -/
def jvIsArray : JVal → Bool
  | JVal.arr _ => true
  | _ => false

/-- The source's custom isTruthy on a JVal: exactly null, undefined, '' and
false are falsy (note: 0 and NaN are truthy under this function, unlike JS
coercion). -/
def jsTruthyJV : JVal → Bool
  | JVal.null => false
  | JVal.undef => false
  | JVal.str s => jsTruthyStr s
  | JVal.bool b => b
  | _ => true

/-- Depth-limited toString of a JVal (Array.prototype.toString joins the
elements' strings with commas, rendering null/undefined elements as '').
The depth budget only matters for nests deeper than the budget, which no
claim input approaches. -/
def jvToStringF : Nat → JVal → String
  | _, JVal.num q => jqToString q
  | _, JVal.str s => s
  | _, JVal.bool b => if b then "true" else "false"
  | _, JVal.obj _ => "[object Object]"
  | _, JVal.null => "null"
  | _, JVal.undef => "undefined"
  | 0, JVal.arr _ => ""
  | f + 1, JVal.arr xs =>
    String.intercalate ","
      (xs.map (fun e =>
        match e with
        | JVal.null => ""
        | JVal.undef => ""
        | x => jvToStringF f x))

def jvToString (v : JVal) : String := jvToStringF 100 v

/-- `value?.toString() ?? 'undefined'` as used by the error constructors:
optional chaining makes null and undefined both render as 'undefined'. -/
def jvToStringOrUndef : JVal → String
  | JVal.null => "undefined"
  | JVal.undef => "undefined"
  | v => jvToString v

/-- Quote and escape a string for JSON (escapes limited to the characters
that can occur here). -/
def jsonQuote (s : String) : String :=
  "\"" ++ String.mk (s.data.foldr
    (fun c acc =>
      if c = '"' then '\\' :: '"' :: acc
      else if c = '\\' then '\\' :: '\\' :: acc
      else c :: acc) []) ++ "\""

/-- Depth-limited JSON.stringify on plain data (no functions or cycles can
occur in JVal, so stringify always succeeds). -/
def jsonStringifyF : Nat → JVal → String
  | _, JVal.num q => jqToString q
  | _, JVal.str s => jsonQuote s
  | _, JVal.bool b => if b then "true" else "false"
  | _, JVal.null => "null"
  | _, JVal.undef => "null"
  | 0, JVal.arr _ => "[]"
  | 0, JVal.obj _ => "\x7b\x7d"
  | f + 1, JVal.arr xs =>
    "[" ++ String.intercalate "," (xs.map (fun e => jsonStringifyF f e)) ++ "]"
  | f + 1, JVal.obj ps =>
    "\x7b" ++ String.intercalate ","
      (ps.map (fun p => jsonQuote p.1 ++ ":" ++ jsonStringifyF f p.2)) ++ "\x7d"

def jsonStringify (v : JVal) : String := jsonStringifyF 100 v

/-- Own property names of an object value, or the thrown TypeError message
when Object.getOwnPropertyNames is applied to null (undefined cannot reach
these call sites: the basic type check rejects it first). -/
def jvOwnNames : JVal → Except String (List String)
  | JVal.obj ps => Except.ok (ps.map Prod.fst)
  | JVal.arr xs =>
    Except.ok ((List.range xs.length).map (fun i => toString i) ++ ["length"])
  | _ => Except.error "Cannot convert undefined or null to object"

/-- `value.hasOwnProperty(k)` (throws on null). -/
def jvHasOwn : JVal → String → Except String Bool
  | JVal.obj ps, k => Except.ok (ps.any (fun p => p.1 = k))
  | JVal.arr xs, k =>
    Except.ok (k = "length" ∨ (List.range xs.length).any (fun i => toString i = k))
  | _, _ => Except.error "Cannot convert undefined or null to object"

/-- `value[k]` property read on an object (missing keys give undefined). -/
def jvGetProp : JVal → String → JVal
  | JVal.obj ps, k =>
    match ps.find? (fun p => p.1 = k) with
    | Option.some p => p.2
    | Option.none => JVal.undef
  | _, _ => JVal.undef

/-- `value[i]` element read on an array with a numeric index: defined only
for integral indices inside [0, length), undefined otherwise (negative and
fractional indices read a missing property). -/
def jvIndex (xs : List JVal) (q : JQ) : JVal :=
  if jqEqv q (jqI (jqFloor q)) ∧ 0 ≤ jqFloor q ∧ jqFloor q < (xs.length : Int) then
    xs.getD (jqFloor q).toNat JVal.undef
  else JVal.undef

/-- Enumeration of basic types (source: enum ValueType). -/
inductive ValueType where
  | none
  | number
  | string
  | boolean
  | object
  | array
  | regex
  deriving DecidableEq, Repr

/-- Source: valueTypeFromString.  The switch compares the trimmed,
lower-cased name; the default classifies a nonempty unknown name as array
when the (original) name contains "[]", as object otherwise, and an empty
name as none. -/
def valueTypeFromString (str : String) : ValueType :=
  let t := jsToLower (jsTrim str)
  if t = "number" then ValueType.number
  else if t = "string" then ValueType.string
  else if t = "boolean" then ValueType.boolean
  else if t = "object" then ValueType.object
  else if t = "array" then ValueType.array
  else if t = "regex" then ValueType.regex
  else if t = "regexp" then ValueType.regex
  else if (jsTrim str).length > 0 then
    (if strContainsS str "[]" then ValueType.array else ValueType.object)
  else ValueType.none

/-- Source: stringFromValueType. -/
def stringFromValueType : ValueType → String
  | ValueType.none => ""
  | ValueType.number => "number"
  | ValueType.string => "string"
  | ValueType.boolean => "boolean"
  | ValueType.object => "object"
  | ValueType.array => "array"
  | ValueType.regex => "regex"

/-- Source: enum ElementCheckType. -/
inductive ElementCheckType where
  | none
  | all
  | random
  | step
  | first
  | last
  | firstThenLast
  | firstThenStep
  | firstThenRandom
  deriving DecidableEq, Repr

/-- Source: checkTypeFromString (default is `all`). -/
def checkTypeFromString (ctstr : String) : ElementCheckType :=
  let t := jsToLower (jsTrim ctstr)
  if t = "random" then ElementCheckType.random
  else if t = "step" then ElementCheckType.step
  else if t = "first" then ElementCheckType.first
  else if t = "last" then ElementCheckType.last
  else if t = "firstthenlast" then ElementCheckType.firstThenLast
  else if t = "firstthenstep" then ElementCheckType.firstThenStep
  else if t = "firstthenrandom" then ElementCheckType.firstThenRandom
  else if t = "none" then ElementCheckType.none
  else if t = "all" then ElementCheckType.all
  else ElementCheckType.all

/-- What eachListParse actually stores per type key.  The source line is
`const constraint = (parseConstraints(type, cdef) != null) || new TypeConstraint()`:
`(... != null)` is a boolean, so when parseConstraints returns a constraint
the stored value is the boolean `true`, and only when it returns undefined
is a fresh bare TypeConstraint (type '') stored. -/
inductive EachV where
  | tru
  | freshBase
  deriving DecidableEq, Repr

/-- An expression value as produced by constraintListParse / eachListParse:
a number, a string, a list of strings, or the Map from an each(...) list. -/
inductive EV where
  | n (q : JQ)
  | s (st : String)
  | list (l : List String)
  | emap (m : List (String × EachV))
  deriving DecidableEq, Repr

/-- `${expVal}` / `expVal.toString()` string coercion of an EV. -/
def evToString : EV → String
  | EV.n q => jqToString q
  | EV.s st => st
  | EV.list l => String.intercalate "," l
  | EV.emap _ => "[object Map]"

/-- `Number(expVal)` coercion of an EV ([] is 0, a singleton array coerces
through its element, other arrays and Maps are NaN). -/
def evToNumber : EV → JNum
  | EV.n q => JNum.v q
  | EV.s st => jsNumberJN st
  | EV.list [] => JNum.v ⟨0, 1⟩
  | EV.list [x] => jsNumberJN x
  | EV.list _ => JNum.nan
  | EV.emap _ => JNum.nan

/-- isTruthy of an EV (numbers are always truthy under the source's
isTruthy, including 0; '' is the only falsy string; arrays and Maps are
objects, hence truthy). -/
def jsTruthyEV : EV → Bool
  | EV.n _ => true
  | EV.s st => jsTruthyStr st
  | EV.list _ => true
  | EV.emap _ => true

def jsTruthyOptEV : Option EV → Bool
  | Option.none => false
  | Option.some e => jsTruthyEV e

def jsTruthyOptStr : Option String → Bool
  | Option.none => false
  | Option.some s => jsTruthyStr s

def jsTruthyOptJN (o : Option JNum) : Bool := o.isSome

def jsTruthyOptBool (o : Option Bool) : Bool := o.getD false

def jsTruthyOptList (o : Option (List String)) : Bool := o.isSome

/-- `expVal?.toString()` (undefined stays undefined). -/
def optEvToString (o : Option EV) : Option String := o.map evToString

/-- Source: class TypeConstraint (base).  Only the fields with runtime
effect are modelled; `type` is the constructor argument trimmed and
lower-cased. -/
structure TypeConstraint where
  type : String := ""
  badName : Option String := Option.none
  note : Option String := Option.none
  deriving DecidableEq, Repr

/-- The TypeConstraint constructor: `this.type = typeString.trim().toLowerCase()`. -/
def TypeConstraint.mkJS (typeString : String) : TypeConstraint :=
  { type := jsToLower (jsTrim typeString) }

/-- Source: class NumberConstraint.  The boolean fields are initialized to
false in the source; min/max/maxx start undefined and are assigned
`Number(expVal)` values, which may be NaN, hence Option JNum. -/
structure NumberConstraint where
  min : Option JNum := Option.none
  max : Option JNum := Option.none
  maxx : Option JNum := Option.none
  isInteger : Bool := false
  isPositive : Bool := false
  isNegative : Bool := false
  notZero : Bool := false
  badName : Option String := Option.none
  note : Option String := Option.none
  deriving DecidableEq, Repr

/-- Source: class StringConstraint.  `matchR`/`notMatch` model the source's
`match`/`notMatch` fields (match is a Lean keyword); note that
parseConstraints never assigns them (its `match` case is commented out in
the source), so they are always none for parser-built constraints. -/
structure StringConstraint where
  minLength : Option JNum := Option.none
  maxLength : Option JNum := Option.none
  startsWith : Option String := Option.none
  notStartsWith : Option String := Option.none
  endsWith : Option String := Option.none
  notEndsWith : Option String := Option.none
  contains : Option String := Option.none
  notContains : Option String := Option.none
  matchR : Option String := Option.none
  notMatch : Option String := Option.none
  badName : Option String := Option.none
  note : Option String := Option.none
  deriving DecidableEq, Repr

/-- Source: class ObjectConstraint.  The source initializes none of the
boolean fields (undefined) and assigns them true, except empty/notEmpty
which the parser assigns as the pair (!not, not); since the source's
isTruthy treats undefined and false alike, plain Bool with default false is
an observationally exact model of each of these fields. -/
structure ObjectConstraint where
  empty : Bool := false
  notEmpty : Bool := false
  hasProperties : Option (List String) := Option.none
  notHasProperties : Option (List String) := Option.none
  notNested : Bool := false
  noPrototype : Bool := false
  canSerialize : Bool := false
  noFalseyProps : Bool := false
  noTruthyProps : Bool := false
  instanceOf : Option String := Option.none
  notInstanceOf : Option String := Option.none
  badName : Option String := Option.none
  note : Option String := Option.none
  deriving DecidableEq, Repr

/-- Source: class ArrayConstraint.
* `contains` is assigned the raw expVal while `notContains` is assigned
  `isTruthy(expVal)` -- a boolean -- in the source (parseConstraints line
  `not ? constraint.notContains = isTruthy(expVal) : constraint.contains = expVal`).
* `elementConstraints` is initialized to [] and only ever read for its
  truthiness (always true: it is an array or Map object); when the parsed
  each(...) value is not a Map the source stores that raw value, which has
  the same always-truthy reading, so storing [] there is observationally
  exact.
* `elementCheckParameter2` is a string in the source's type but receives the
  number NaN when only one parameter is supplied; it is never read by
  test(), and its only other uses go through `${...}` templating, so it is
  stored here already stringified.
* The startsWith/endsWith fields of the source are never assigned nor read
  and are omitted. -/
structure ArrayConstraint where
  minLength : Option JNum := Option.none
  maxLength : Option JNum := Option.none
  contains : Option EV := Option.none
  notContains : Option Bool := Option.none
  elementConstraints : List (String × EachV) := []
  elementCheckType : ElementCheckType := ElementCheckType.none
  elementCheckParameter : String := ""
  elementCheckParameter2 : String := ""
  badName : Option String := Option.none
  note : Option String := Option.none
  deriving DecidableEq, Repr

/-- The runtime value of parseConstraints' `constraint` variable.  Besides
the four typed variants and the bare base constraint, the variable can hold
the JS boolean `true`: the default switch branch executes
`constraint = (constraint != null) || new TypeConstraint(...)`, which
evaluates to `true` once a constraint already exists. -/
inductive Built where
  | num (c : NumberConstraint)
  | str (c : StringConstraint)
  | obj (c : ObjectConstraint)
  | arr (c : ArrayConstraint)
  | base (c : TypeConstraint)
  | jsTrue
  deriving DecidableEq, Repr

/-- Result of processing one directive token: either the loop's early
`return r` or the updated constraint to continue with. -/
inductive StepR where
  | ret (r : Option Built)
  | cont (b : Built)

/-- Source: constraintListParse.  (The source's first line `str.trim()`
discards its result, so it has no effect and is not modelled.)  A leading
single or double quote causes substring(1, length-1), which drops the final
character whether or not it is a quote.  A comma makes a list; a fully
numeric string (isFinite(Number(str))) a number; otherwise the string. -/
def constraintListParse (str : String) : EV :=
  let str :=
    if jsCharAtO str 0 = Option.some (Char.ofNat 34) ∨
       jsCharAtO str 0 = Option.some (Char.ofNat 39) then
      jsSubstringI str 1 ((str.length : Int) - 1)
    else str
  if strContainsCh str ',' then EV.list (jsSplitChar str ',')
  else
    match jsNumberJN str with
    | JNum.v q => EV.n q
    | JNum.nan => EV.s str

/-- Result of parseCheckType. -/
structure PCT where
  name : String
  p1 : Option JNum
  p2 : Option JNum
  deriving DecidableEq, Repr

/-- Source: parseCheckType.  Note `p1 = p[0] ?? parseInt(p[0])`: when p[0]
exists (and split always yields at least one entry) p1 is a string, which
the following `typeof p1 === 'string'` guard resets to undefined; only a
missing entry gives parseInt(undefined) = NaN.  So p1 is always undefined,
and p2 is undefined when two parameters were supplied and NaN otherwise. -/
def parseCheckType (ctStr : String) : PCT :=
  let opi0 := jsIndexOfS ctStr "(" 0
  let opi : Int := if opi0 = -1 then (ctStr.length : Int) else opi0
  let name := jsSubstringI ctStr 0 opi
  let cpi0 := jsIndexOfS ctStr ")" opi.toNat
  let cpi : Int := if cpi0 = -1 then (ctStr.length : Int) else cpi0
  let p := jsSplitChar (jsSubstringI ctStr (opi + 1) cpi) ','
  let p1 : Option JNum := if 1 ≤ p.length then Option.none else Option.some JNum.nan
  let p2 : Option JNum := if 2 ≤ p.length then Option.none else Option.some JNum.nan
  ⟨name, p1, p2⟩

/-- Source: eachListParse, parameterized by the recursive parseConstraints
instance of the next lower recursion depth (see parseConstraints below).
Splits on '|', and for each block with a comma takes the part before the
first comma as the type name and the rest as the constraint definition.
The stored value is EachV (see there for the source's boolean-vs-constraint
slip).  Map.set overwrites an existing key in place, else appends. -/
def eachMapSet (m : List (String × EachV)) (k : String) (v : EachV) :
    List (String × EachV) :=
  if m.any (fun p => p.1 = k) then m.map (fun p => if p.1 = k then (k, v) else p)
  else m ++ [(k, v)]

def eachListParse (recur : String → String → Option Built) (str : String) :
    List (String × EachV) :=
  (jsSplitChar str '|').foldl
    (fun m tblock =>
      let ci := jsIndexOfS tblock "," 0
      if ci = -1 then m
      else
        let ty := jsTrim (jsSubstringI tblock 0 ci)
        let cdef := jsSubstringI tblock (ci + 1) (tblock.length : Int)
        let entry := if (recur ty cdef).isSome then EachV.tru else EachV.freshBase
        eachMapSet m ty entry) []

/-- The pieces extracted from one directive token by the head of the
expression loop: the final trimmed lower-cased keyword, the negation flag,
the expression value, and the raw parenthesized parameter text. -/
structure Tok where
  e4 : String
  notf : Bool
  expVal : Option EV
  params : Option String

/-- The token-destructuring prefix of parseConstraints' expression loop:
trim; extract a trailing (...) parameter block (restoring the ;; comma
sentinels, stripping one leading '(' and one trailing ')'), computing
expVal via eachListParse for the literal keyword 'each' and
constraintListParse otherwise; strip a leading '!'; split at the first '='
(a value may contain further '='); trim and lower-case the keyword. -/
def tokenPrep (recur : String → String → Option Built) (tk : String) : Tok :=
  let e0 := jsTrim tk
  let cpi := jsIndexOfS e0 "(" 0
  let step1 : String × Option String × Option EV :=
    if cpi = -1 then (e0, Option.none, Option.none)
    else
      let params0 := jsTrim (jsRestoreCommas (jsSubstringI e0 cpi (e0.length : Int)))
      let params1 :=
        if jsCharAtO params0 0 = Option.some '(' then
          jsSubstringI params0 1 (params0.length : Int)
        else params0
      let params2 :=
        if jsCharAtO params1 ((params1.length : Int) - 1) = Option.some ')' then
          jsSubstringI params1 0 ((params1.length : Int) - 1)
        else params1
      let e1 := jsTrim (jsSubstringI e0 0 cpi)
      let ev :=
        if e1 = "each" then Option.some (EV.emap (eachListParse recur params2))
        else Option.some (constraintListParse params2)
      (e1, Option.some params2, ev)
  let e1 := step1.1
  let params := step1.2.1
  let ev1 := step1.2.2
  let step2 : String × Bool :=
    if jsCharAtO e1 0 = Option.some '!' then (jsSubstringI e1 1 (e1.length : Int), true)
    else (e1, false)
  let e2 := step2.1
  let notf := step2.2
  let step3 : String × Option EV :=
    if strContainsCh e2 '=' then
      let p := jsSplitChar e2 '='
      let pv := if p.length > 2 then String.intercalate "=" (p.drop 1) else p.getD 1 ""
      let e3 := jsTrim (p.headD "")
      let ev :=
        if e3 = "each" then Option.some (EV.emap (eachListParse recur pv))
        else Option.some (constraintListParse pv)
      (e3, ev)
    else (e2, ev1)
  { e4 := jsToLower (jsTrim step3.1), notf := notf, expVal := step3.2, params := params }

/-- One pass of the parenthesis-protection while-loop of parseConstraints:
while an unprocessed '(' exists, commas up to the matching ')' (or end of
string) are replaced by the ;; sentinel, and the search resumes at the old
')' position inside the rewritten string.  The loop's progress measure
(length - fpi) strictly decreases, so a fuel of length+1 always suffices;
parenProtect supplies it. -/
def parenLoop : Nat → String → Int → String
  | 0, s, _ => s
  | f + 1, s, fpi =>
    if fpi = -1 then s
    else
      let cpi0 := jsIndexOfS s ")" fpi.toNat
      let cpi : Int := if cpi0 = -1 then (s.length : Int) else cpi0
      let swap := jsProtectCommas (jsSubstringI s fpi cpi)
      let s2 := jsSubstringI s 0 fpi ++ swap ++ jsSubstringI s cpi (s.length : Int)
      parenLoop f s2 (jsIndexOfS s2 "(" cpi.toNat)

def parenProtect (s : String) : String :=
  parenLoop (s.length + 1) s (jsIndexOfS s "(" 0)

/-- The case labels of parseConstraints' number switch.  numKey classifies
the (trimmed, lower-cased) keyword exactly as the source's case labels do,
aliases included; the unrecognized fallback is numKey.bad. -/
inductive NumKey where
  | noc | integer | positive | negative | notzero | kmin | kmax | kmaxx | note | bad
  deriving DecidableEq

def numKey (e4 : String) : NumKey :=
  if e4 = "noconstraint" ∨ e4 = "no constraint" then NumKey.noc
  else if e4 = "integer" then NumKey.integer
  else if e4 = "positive" then NumKey.positive
  else if e4 = "negative" then NumKey.negative
  else if e4 = "notzero" ∨ e4 = "not zero" ∨ e4 = "nonzero" then NumKey.notzero
  else if e4 = "min" then NumKey.kmin
  else if e4 = "max" then NumKey.kmax
  else if e4 = "maxx" then NumKey.kmaxx
  else if e4 = "note" then NumKey.note
  else NumKey.bad

/-- The ValueType.number arm of parseConstraints' switch, for one token.
The `noconstraint` keyword returns the constraint built so far (not an
empty one). -/
def numStep (e4 : String) (expVal : Option EV) (c : NumberConstraint) : StepR :=
  match numKey e4 with
  | NumKey.noc => StepR.ret (Option.some (Built.num c))
  | NumKey.integer => StepR.cont (Built.num { c with isInteger := true })
  | NumKey.positive => StepR.cont (Built.num { c with isPositive := true })
  | NumKey.negative => StepR.cont (Built.num { c with isNegative := true })
  | NumKey.notzero => StepR.cont (Built.num { c with notZero := true })
  | NumKey.kmin =>
    StepR.cont (Built.num { c with
      min := if jsTruthyOptEV expVal then Option.some (evToNumber (expVal.getD (EV.s "")))
             else Option.none })
  | NumKey.kmax =>
    StepR.cont (Built.num { c with
      max := if jsTruthyOptEV expVal then Option.some (evToNumber (expVal.getD (EV.s "")))
             else Option.none })
  | NumKey.kmaxx =>
    StepR.cont (Built.num { c with
      maxx := if jsTruthyOptEV expVal then Option.some (evToNumber (expVal.getD (EV.s "")))
              else Option.none })
  | NumKey.note => StepR.cont (Built.num { c with note := optEvToString expVal })
  | NumKey.bad => StepR.cont (Built.num { c with badName := Option.some e4 })

/-- The case labels of the string switch ('match' is commented out in the
source, so it is not a label and falls to bad). -/
inductive StrKey where
  | noc | minlength | maxlength | startswith | endswith | contains | note | bad
  deriving DecidableEq

def strKey (e4 : String) : StrKey :=
  if e4 = "noconstraint" ∨ e4 = "no constraint" then StrKey.noc
  else if e4 = "minlength" then StrKey.minlength
  else if e4 = "maxlength" then StrKey.maxlength
  else if e4 = "startswith" then StrKey.startswith
  else if e4 = "endswith" then StrKey.endswith
  else if e4 = "contains" then StrKey.contains
  else if e4 = "note" then StrKey.note
  else StrKey.bad

/-- The ValueType.string arm of parseConstraints' switch, for one token. -/
def strStep (e4 : String) (notf : Bool) (expVal : Option EV) (c : StringConstraint) :
    StepR :=
  match strKey e4 with
  | StrKey.noc => StepR.ret (Option.some (Built.str c))
  | StrKey.minlength =>
    StepR.cont (Built.str { c with
      minLength := if jsTruthyOptEV expVal then
                     Option.some (evToNumber (expVal.getD (EV.s "")))
                   else Option.none })
  | StrKey.maxlength =>
    StepR.cont (Built.str { c with
      maxLength := if jsTruthyOptEV expVal then
                     Option.some (evToNumber (expVal.getD (EV.s "")))
                   else Option.none })
  | StrKey.startswith =>
    StepR.cont (Built.str (if notf then { c with notStartsWith := optEvToString expVal }
                           else { c with startsWith := optEvToString expVal }))
  | StrKey.endswith =>
    StepR.cont (Built.str (if notf then { c with notEndsWith := optEvToString expVal }
                           else { c with endsWith := optEvToString expVal }))
  | StrKey.contains =>
    StepR.cont (Built.str (if notf then { c with notContains := optEvToString expVal }
                           else { c with contains := optEvToString expVal }))
  | StrKey.note =>
    StepR.cont (Built.str { c with
      note := if jsTruthyOptEV expVal then Option.some ((optEvToString expVal).getD "")
              else Option.none })
  | StrKey.bad => StepR.cont (Built.str { c with badName := Option.some e4 })

/-- The case labels of the object switch (with their space-form aliases). -/
inductive ObjKey where
  | noc | empty | hasproperties | notnested | noprototype | canserialize
  | notruthyprops | nofalseyprops | instanceof | note | bad
  deriving DecidableEq

def objKey (e4 : String) : ObjKey :=
  if e4 = "noconstraint" ∨ e4 = "no constraint" then ObjKey.noc
  else if e4 = "empty" then ObjKey.empty
  else if e4 = "hasproperties" ∨ e4 = "has properties" then ObjKey.hasproperties
  else if e4 = "notnested" ∨ e4 = "not nested" then ObjKey.notnested
  else if e4 = "noprototype" ∨ e4 = "no prototype" then ObjKey.noprototype
  else if e4 = "canserialize" ∨ e4 = "can serialize" then ObjKey.canserialize
  else if e4 = "notruthyprops" ∨ e4 = "no truthy props" then ObjKey.notruthyprops
  else if e4 = "nofalseyprops" ∨ e4 = "no falsey props" then ObjKey.nofalseyprops
  else if e4 = "instanceof" ∨ e4 = "instance of" then ObjKey.instanceof
  else if e4 = "note" then ObjKey.note
  else ObjKey.bad

/-- The ValueType.object arm of parseConstraints' switch, for one token.
The `empty` keyword assigns both fields as a complementary pair:
`constraint.notEmpty = not; constraint.empty = !not`. -/
def objStep (e4 : String) (notf : Bool) (expVal : Option EV) (c : ObjectConstraint) :
    StepR :=
  match objKey e4 with
  | ObjKey.noc => StepR.ret (Option.some (Built.obj c))
  | ObjKey.empty => StepR.cont (Built.obj { c with notEmpty := notf, empty := !notf })
  | ObjKey.hasproperties =>
    let lst : Option (List String) :=
      match expVal with
      | Option.some (EV.s st) => Option.some (jsSplitChar st '|')
      | Option.some (EV.list l) => Option.some l
      | _ => Option.none
    StepR.cont (Built.obj (if notf then { c with notHasProperties := lst }
                           else { c with hasProperties := lst }))
  | ObjKey.notnested => StepR.cont (Built.obj { c with notNested := true })
  | ObjKey.noprototype => StepR.cont (Built.obj { c with noPrototype := true })
  | ObjKey.canserialize => StepR.cont (Built.obj { c with canSerialize := true })
  | ObjKey.notruthyprops => StepR.cont (Built.obj { c with noTruthyProps := true })
  | ObjKey.nofalseyprops => StepR.cont (Built.obj { c with noFalseyProps := true })
  | ObjKey.instanceof =>
    StepR.cont (Built.obj (if notf then { c with notInstanceOf := optEvToString expVal }
                           else { c with instanceOf := optEvToString expVal }))
  | ObjKey.note => StepR.cont (Built.obj { c with note := optEvToString expVal })
  | ObjKey.bad => StepR.cont (Built.obj { c with badName := Option.some e4 })

/-- The case labels of the array switch. -/
inductive ArrKey where
  | noc | minlength | maxlength | contains | checktype | each | note | bad
  deriving DecidableEq

def arrKey (e4 : String) : ArrKey :=
  if e4 = "noconstraint" ∨ e4 = "no constraint" then ArrKey.noc
  else if e4 = "minlength" ∨ e4 = "min length" then ArrKey.minlength
  else if e4 = "maxlength" ∨ e4 = "max length" then ArrKey.maxlength
  else if e4 = "contains" then ArrKey.contains
  else if e4 = "checktype" ∨ e4 = "check type" then ArrKey.checktype
  else if e4 = "each" then ArrKey.each
  else if e4 = "note" then ArrKey.note
  else ArrKey.bad

/-- The ValueType.array arm of parseConstraints' switch, for one token. -/
def arrStep (e4 : String) (notf : Bool) (expVal : Option EV) (params : Option String)
    (c : ArrayConstraint) : StepR :=
  match arrKey e4 with
  | ArrKey.noc => StepR.ret (Option.some (Built.arr c))
  | ArrKey.minlength =>
    StepR.cont (Built.arr { c with
      minLength := if jsTruthyOptEV expVal then
                     Option.some (evToNumber (expVal.getD (EV.s "")))
                   else Option.none })
  | ArrKey.maxlength =>
    StepR.cont (Built.arr { c with
      maxLength := if jsTruthyOptEV expVal then
                     Option.some (evToNumber (expVal.getD (EV.s "")))
                   else Option.none })
  | ArrKey.contains =>
    StepR.cont (Built.arr (if notf then { c with notContains := Option.some (jsTruthyOptEV expVal) }
                           else { c with contains := expVal }))
  | ArrKey.checktype =>
    let psplit := jsSplitChar (params.getD "") ','
    let pct := parseCheckType (match expVal with
                               | Option.some e => evToString e
                               | Option.none => "undefined")
    StepR.cont (Built.arr { c with
      elementCheckType := checkTypeFromString pct.name
      elementCheckParameter := psplit.headD ""
      elementCheckParameter2 :=
        if 2 ≤ psplit.length then psplit.getD 1 ""
        else
          match pct.p2 with
          | Option.some jn => jnToString jn
          | Option.none => "" })
  | ArrKey.each =>
    StepR.cont (Built.arr { c with
      elementConstraints := match expVal with
                            | Option.some (EV.emap m) => m
                            | _ => [] })
  | ArrKey.note => StepR.cont (Built.arr { c with note := optEvToString expVal })
  | ArrKey.bad => StepR.cont (Built.arr { c with badName := Option.some e4 })

/-- The default arm (ValueType none/boolean/regex): a bare `return` -- so
parseConstraints yields undefined -- on the exact string 'no constraint'
(NOT on 'noconstraint'); otherwise
`constraint = (constraint != null) || new TypeConstraint(...)`, which is a
fresh base constraint the first time and the JS boolean `true` afterwards. -/
def defaultStep (vt : ValueType) (e4 : String) (acc : Option Built) : StepR :=
  if e4 = "no constraint" then StepR.ret Option.none
  else
    StepR.cont (match acc with
                | Option.some _ => Built.jsTrue
                | Option.none => Built.base (TypeConstraint.mkJS (stringFromValueType vt)))

/-- Dispatch of one prepared token into the arm matching the value type
(the switch body of parseConstraints' expression loop).  The accumulator is
the `constraint` variable; the matching variant's current record is
recovered from it (the `isTruthy(constraint) ? constraint as XxxConstraint
: new XxxConstraint()` line; the wildcard fallback to a fresh record is
unreachable from parseConstraints' entry because valueType is fixed for the
whole run, so the accumulator always holds the matching variant or
nothing). -/
def processOne (vt : ValueType) (tp : Tok) (acc : Option Built) : StepR :=
  match vt with
  | ValueType.number =>
    numStep tp.e4 tp.expVal
      (match acc with
       | Option.some (Built.num c) => c
       | _ => {})
  | ValueType.string =>
    strStep tp.e4 tp.notf tp.expVal
      (match acc with
       | Option.some (Built.str c) => c
       | _ => {})
  | ValueType.object =>
    objStep tp.e4 tp.notf tp.expVal
      (match acc with
       | Option.some (Built.obj c) => c
       | _ => {})
  | ValueType.array =>
    arrStep tp.e4 tp.notf tp.expVal tp.params
      (match acc with
       | Option.some (Built.arr c) => c
       | _ => {})
  | _ => defaultStep vt tp.e4 acc

/-- The expression loop of parseConstraints: prepare each token, dispatch
it, stop early on a StepR.ret.  At the end of the list the source returns
`isTruthy(constraint) ? constraint : undefined` -- every Built value,
including the boolean true, is truthy, so this is the accumulator itself. -/
def processTokens (recur : String → String → Option Built) (vt : ValueType) :
    List String → Option Built → Option Built
  | [], acc => acc
  | tk :: rest, acc =>
    match processOne vt (tokenPrep recur tk) acc with
    | StepR.ret r => r
    | StepR.cont b => processTokens recur vt rest (Option.some b)

/-- The body of parseConstraints for one recursion level, parameterized by
the next-lower-depth instance used for nested each(...) parsing. -/
def parseMain (recur : String → String → Option Built) (type block : String) :
    Option Built :=
  if ¬ jsTruthyStr block ∨ ¬ jsTruthyStr type then Option.none
  else
    let valueType := valueTypeFromString type
    let cblock := parenProtect (jsTrim block)
    processTokens recur valueType (jsSplitChar cblock ',') Option.none

/-- Source: parseConstraints(type, block).  The extra Nat argument is the
each(...) nesting budget: each nested eachListParse call parses its
sub-blocks with the next lower depth, and depth 0 yields undefined.  Any
budget at least the each-nesting depth of the input (which is bounded by
the block length) reproduces the source exactly; the claims below use
closed inputs with ample budget or quantify over all budgets. -/
def parseConstraints : Nat → String → String → Option Built
  | 0, _, _ => Option.none
  | fuel + 1, type, block => parseMain (parseConstraints fuel) type block

/-- Source: ConstraintConflictError -- `Both X and !X declared`. -/
def conflictMsg (t : String) : String :=
  "Constraint Error: Both " ++ t ++ " and !" ++ t ++ " declared"

/-- Source: ConstraintFail -- `Failed X: value`. -/
def failMsg (failType vstr : String) : String :=
  "Constraint Error: Failed " ++ failType ++ ": " ++ vstr

/-- Source: ConstraintBasicTypeError. -/
def basicTypeMsg (v : JVal) (expType : String) : String :=
  "Constraint Error: Incorrect type " ++ jsTypeof v ++ ", (" ++ expType ++
    " expected) " ++ jvToStringOrUndef v

/-- Source: RangeConstraintError.  The constructor picks the direction text
by re-comparing value with the violated bound. -/
def rangeMsg (value comp : JNum) (rangeType : String) : String :=
  "Constraint Error: " ++ rangeType ++ " " ++ jnToString value ++
    (if jnLt value comp then " is less than range minimum of "
     else " exceeds range maximum of ") ++ jnToString comp

/-- Source: IntegerConstraintError (the tested value is never undefined at
its call site, so only the defined-value message arm is reachable). -/
def integerFailMsg (q : JQ) : String :=
  "Constraint Error: Value " ++ jqToString q ++ " is not an integer"

/-- Source: PositiveConstraintError. -/
def positiveFailMsg (q : JQ) : String :=
  "Constraint Error: Value " ++ jqToString q ++ " is not positive"

/-- Source: NegativeConstraintError.  The source reads
`const vstr = value?.toString ?? 'undefined'` -- note the missing call
parentheses: vstr is the toString function object itself, which the
template renders as the function's source text (V8 rendering). -/
def negativeFailMsg : String :=
  "Constraint Error: Value function toString() \x7b [native code] \x7d is not negative"

/-- Source: ZeroValueConstraintError. -/
def zeroMsg : String := "Constraint Error: Zero is not an allowable value"

/-- Source: TypeConstraint.test -- the basic typeof check. -/
def TypeConstraint.test (c : TypeConstraint) (v : JVal) : Except String Unit :=
  if jsTypeof v ≠ c.type then Except.error (basicTypeMsg v c.type) else Except.ok ()

/-- Source: NumberConstraint.test.  Rule order: type, integer, notZero,
positive/negative conflict, positive, negative, min, max, maxx.  The
min/max/maxx guards use `!== undefined` (not isTruthy), and comparisons
against a NaN bound are false, so a NaN bound never fires. -/
def NumberConstraint.test (c : NumberConstraint) (v : JVal) : Except String Unit :=
  match v with
  | JVal.num q =>
    if c.isInteger ∧ ¬ jqEqv (jqI (jqFloor q)) q then Except.error (integerFailMsg q)
    else if c.notZero ∧ jqEqv q (jqI 0) then Except.error zeroMsg
    else if c.isPositive ∧ c.isNegative then Except.error (conflictMsg "positive")
    else if c.isPositive ∧ jqLt q (jqI 0) then Except.error (positiveFailMsg q)
    else if c.isNegative ∧ jqLt (jqI 0) q then Except.error negativeFailMsg
    else if (match c.min with
             | Option.some m => jnLt (JNum.v q) m
             | Option.none => false) then
      Except.error (rangeMsg (JNum.v q) (c.min.getD JNum.nan) "Number")
    else if (match c.max with
             | Option.some m => jnGt (JNum.v q) m
             | Option.none => false) then
      Except.error (rangeMsg (JNum.v q) (c.max.getD JNum.nan) "Number")
    else if (match c.maxx with
             | Option.some m => jnGe (JNum.v q) m
             | Option.none => false) then
      Except.error (rangeMsg (JNum.v q) (c.maxx.getD JNum.nan) "Number")
    else Except.ok ()
  | _ => Except.error (basicTypeMsg v "number")

/-- Stand-in for `new RegExp(pat).test(s)`.  parseConstraints never assigns
the matchR/notMatch fields (its string switch has no match case -- the
source's is commented out), so this branch is unreachable through validate;
substring containment stands in for the JS regex engine here and is never
relied on by any claim. -/
def jsRegexTest (pat s : String) : Bool := jsIndexOfS s pat 0 ≠ -1

/-- Continuation of StringConstraint.test after the contains rules. -/
def StringConstraint.testMatch (c : StringConstraint) (s : String) : Except String Unit :=
  if jsTruthyOptStr c.matchR ∧ jsTruthyOptStr c.notMatch then
    Except.error (conflictMsg "match")
  else if jsTruthyOptStr c.matchR ∨ jsTruthyOptStr c.notMatch then
    let comp := (c.matchR.getD (c.notMatch.getD ""))
    let nt := jsTruthyOptStr c.notMatch
    if jsRegexTest comp s then
      (if nt then Except.error (failMsg "!match" s) else Except.ok ())
    else
      (if ¬ nt then Except.error (failMsg "match" s) else Except.ok ())
  else Except.ok ()

/-- Continuation of StringConstraint.test after the endsWith rules. -/
def StringConstraint.testContains (c : StringConstraint) (s : String) : Except String Unit :=
  if jsTruthyOptStr c.contains ∧ jsTruthyOptStr c.notContains then
    Except.error (conflictMsg "contains")
  else if jsTruthyOptStr c.contains ∨ jsTruthyOptStr c.notContains then
    let comp := (c.contains.getD (c.notContains.getD ""))
    let nt := jsTruthyOptStr c.notContains
    if jsIndexOfS s comp 0 ≠ -1 then
      (if nt then Except.error (failMsg "!contains" s) else StringConstraint.testMatch c s)
    else
      (if ¬ nt then Except.error (failMsg "contains" s) else StringConstraint.testMatch c s)
  else StringConstraint.testMatch c s

/-- Continuation of StringConstraint.test after the startsWith rules. -/
def StringConstraint.testEnds (c : StringConstraint) (s : String) : Except String Unit :=
  if jsTruthyOptStr c.endsWith ∧ jsTruthyOptStr c.notEndsWith then
    Except.error (conflictMsg "endsWith")
  else if jsTruthyOptStr c.endsWith ∨ jsTruthyOptStr c.notEndsWith then
    let comp := (c.endsWith.getD (c.notEndsWith.getD ""))
    let nt := jsTruthyOptStr c.notEndsWith
    if jsSubstringI s ((s.length : Int) - (comp.length : Int)) (s.length : Int) = comp then
      (if nt then Except.error (failMsg "!endsWith" s) else StringConstraint.testContains c s)
    else
      (if ¬ nt then Except.error (failMsg "endsWith" s) else StringConstraint.testContains c s)
  else StringConstraint.testContains c s

/-- Source: StringConstraint.test.  Rule order: type, minLength, maxLength,
then for each of startsWith/endsWith/contains/match: the both-declared
conflict first, then the content check.  startsWith picks its comparand by
isTruthy selection; the other three use the `a ?? b ?? ''` chain (so a
present-but-empty positive field is preferred by ??, unlike isTruthy). -/
def StringConstraint.test (c : StringConstraint) (v : JVal) : Except String Unit :=
  match v with
  | JVal.str s =>
    if jsTruthyOptJN c.minLength ∧
       jnLt (JNum.v (jqN s.length)) (c.minLength.getD (JNum.v (jqI 0))) then
      Except.error (rangeMsg (JNum.v (jqN s.length)) (c.minLength.getD JNum.nan)
        "String Length")
    else if jsTruthyOptJN c.maxLength ∧
       jnGt (JNum.v (jqN s.length)) (c.maxLength.getD (JNum.v (jqI 0))) then
      Except.error (rangeMsg (JNum.v (jqN s.length)) (c.maxLength.getD JNum.nan)
        "String Length")
    else if jsTruthyOptStr c.startsWith ∧ jsTruthyOptStr c.notStartsWith then
      Except.error (conflictMsg "startsWith")
    else if jsTruthyOptStr c.startsWith ∨ jsTruthyOptStr c.notStartsWith then
      let comp := if jsTruthyOptStr c.startsWith then c.startsWith.getD ""
                  else c.notStartsWith.getD ""
      let nt := jsTruthyOptStr c.notStartsWith
      if jsSubstringI s 0 (comp.length : Int) = comp then
        (if nt then Except.error (failMsg "!startsWith" s)
         else StringConstraint.testEnds c s)
      else
        (if ¬ nt then Except.error (failMsg "startsWith" s)
         else StringConstraint.testEnds c s)
    else StringConstraint.testEnds c s
  | _ => Except.error (basicTypeMsg v "string")

/-- First required key missing from the value, walking the list in order
(a hasOwnProperty call on null throws, which propagates). -/
def firstMissing (v : JVal) : List String → Except String (Option String)
  | [] => Except.ok Option.none
  | k :: r => do
    let b ← jvHasOwn v k
    if b then firstMissing v r else pure (Option.some k)

/-- First forbidden key present on the value, walking the list in order. -/
def firstPresent (v : JVal) : List String → Except String (Option String)
  | [] => Except.ok Option.none
  | k :: r => do
    let b ← jvHasOwn v k
    if b then pure (Option.some k) else firstPresent v r

/-- `value.constructor.name` of the object values that can reach it:
plain objects say Object, arrays say Array, null throws. -/
def jvCtorName : JVal → Except String String
  | JVal.obj _ => Except.ok "Object"
  | JVal.arr _ => Except.ok "Array"
  | _ => Except.error "Cannot read properties of null (reading 'constructor')"

/-- Source: ObjectConstraint.test.  Rule order: type, empty/notEmpty
conflict, hasProperties overlap conflict, empty, notEmpty, hasProperties,
notHasProperties, notNested, noPrototype, canSerialize, noFalseyProps,
noTruthyProps, instanceOf, notInstanceOf.  Rules that enumerate properties
throw a TypeError when the value is null, which validate catches like any
other error. -/
def ObjectConstraint.test (c : ObjectConstraint) (v : JVal) : Except String Unit := do
  if jsTypeof v ≠ "object" then throw (basicTypeMsg v "object")
  if c.empty ∧ c.notEmpty then throw (conflictMsg "empty")
  if jsTruthyOptList c.hasProperties ∧ jsTruthyOptList c.notHasProperties then
    let collisions := (c.hasProperties.getD []).filter
      (fun h => (c.notHasProperties.getD []).any (fun x => x = h))
    if collisions.length > 0 then
      throw (conflictMsg ("hasProperties \"" ++ String.intercalate "," collisions ++ "\""))
  if c.empty then
    let names ← jvOwnNames v
    if names.length > 0 then
      throw (failMsg "empty" ("object contains " ++ toString names.length ++ " properties"))
  if c.notEmpty then
    let names ← jvOwnNames v
    if names.length = 0 then throw (failMsg "!empty" (jsonStringify v))
  if jsTruthyOptList c.hasProperties then
    match ← firstMissing v (c.hasProperties.getD []) with
    | Option.some k => throw (failMsg "hasProperties" k)
    | Option.none => pure ()
  if jsTruthyOptList c.notHasProperties then
    match ← firstPresent v (c.notHasProperties.getD []) with
    | Option.some k => throw (failMsg "!hasProperties" k)
    | Option.none => pure ()
  if c.notNested then
    let names ← jvOwnNames v
    match names.find? (fun p =>
        jsTypeof (jvGetProp v p) = "object" ∧ ¬ jvIsArray (jvGetProp v p)) with
    | Option.some p => throw (failMsg "notNested" p)
    | Option.none => pure ()
  if c.noPrototype then
    match v with
    | JVal.null => throw "Cannot convert undefined or null to object"
    | JVal.arr _ => throw (failMsg "noPrototype" (jvToString v))
    | _ => pure ()
  if c.canSerialize then
    if ¬ jsTruthyStr (jsonStringify v) then throw (failMsg "canSerialize" (jvToString v))
  if c.noFalseyProps then
    let names ← jvOwnNames v
    match names.find? (fun p => ¬ jsTruthyJV (jvGetProp v p)) with
    | Option.some p => throw (failMsg "noFalseyProps" p)
    | Option.none => pure ()
  if c.noTruthyProps then
    let names ← jvOwnNames v
    match names.find? (fun p => jsTruthyJV (jvGetProp v p)) with
    | Option.some p => throw (failMsg "noTruthyProps" p)
    | Option.none => pure ()
  if jsTruthyOptStr c.instanceOf then
    let ctor ← jvCtorName v
    if ctor ≠ c.instanceOf.getD "" then
      throw (failMsg ("instanceOf (" ++ c.instanceOf.getD "" ++ ")") ctor)
  if jsTruthyOptStr c.notInstanceOf then
    let ctor ← jvCtorName v
    if ctor = c.notInstanceOf.getD "" then
      throw (failMsg "!instanceOf" (c.notInstanceOf.getD ""))

/-- The comparand of the array contains test: `this.contains ??
this.notContains ?? ''` -- the first is a raw EV, the second a boolean (see
ArrayConstraint), and the final fallback the empty string. -/
inductive CompV where
  | ev (e : EV)
  | bl (b : Bool)

/-- Strict-equality membership comparison of an array element against the
comparand (Array.prototype.includes; on these values SameValueZero and ===
agree).  A list-valued EV is a fresh array object, never reference-equal to
an element; EV numbers are always finite. -/
def jvEqComp (x : JVal) (cp : CompV) : Bool :=
  match cp with
  | CompV.bl b =>
    match x with
    | JVal.bool c => b = c
    | _ => false
  | CompV.ev (EV.n q) =>
    match x with
    | JVal.num q2 => jqEqv q q2
    | _ => false
  | CompV.ev (EV.s st) =>
    match x with
    | JVal.str s2 => st = s2
    | _ => false
  | CompV.ev (EV.list _) => false
  | CompV.ev (EV.emap _) => false

/-- The switch of ArrayConstraint.test that derives the traversal
parameters (firstCount, thenCount, step, counting) from the check type, the
(string) parameter and the array length.  Declared initial values are
firstCount = 0, thenCount = 0, step = 1, counting = false.  Note that:
* last and firstThenLast derive thenCount as length - parseInt(p1) -- both
  from parameter 1; elementCheckParameter2 is never read;
* step uses parseInt(p1) for the step as well as firstThenStep does;
* the random modes set step = 0. -/
def travConfig (ct : ElementCheckType) (param : String) (len : JQ) :
    JNum × JNum × JNum × Bool :=
  match ct with
  | ElementCheckType.none => (JNum.v (jqI 0), JNum.v (jqI 0), JNum.v (jqI 1), false)
  | ElementCheckType.all => (JNum.v len, JNum.v (jqI 0), JNum.v (jqI 1), true)
  | ElementCheckType.first => (parseIntJN param, JNum.v (jqI 0), JNum.v (jqI 1), true)
  | ElementCheckType.last =>
    (JNum.v (jqI 0), jnSub (JNum.v len) (parseIntJN param), JNum.v (jqI 1), false)
  | ElementCheckType.firstThenLast =>
    let fc := parseIntJN param
    let t0 := jnSub (JNum.v len) (parseIntJN param)
    let t1 := if jnLt t0 (JNum.v (jqI 0)) then JNum.v len else t0
    (fc, t1, JNum.v (jqI 1), true)
  | ElementCheckType.step => (JNum.v len, JNum.v (jqI 0), parseIntJN param, true)
  | ElementCheckType.random => (JNum.v (jqI 0), parseIntJN param, JNum.v (jqI 0), true)
  | ElementCheckType.firstThenStep =>
    let fc := parseIntJN param
    (fc, jnSub (JNum.v len) fc, parseIntJN param, true)
  | ElementCheckType.firstThenRandom =>
    (parseIntJN param, parseIntJN param, JNum.v (jqI 0), true)

/-- The per-element check of the traversal loop.  The source classifies the
element's runtime type (array before object) and then parses a constraint
for it from the EMPTY string: `const tc = parseConstraints(t, ''); if (tc
!= null) tc.test(ev)`.  parseConstraints returns undefined for an empty
block (its first guard; lemma parseConstraints_empty_block below), so the
element is never actually tested; the some-arm is unreachable and its value
immaterial. -/
def travElemCheck (pf : Nat) (ev : JVal) : Except String Unit :=
  let t0 := jsTypeof ev
  let t := if jvIsArray ev then "array" else t0
  match parseConstraints pf t "" with
  | Option.none => Except.ok ()
  | Option.some _ => Except.ok ()

/-- The state of the traversal while-loop: the loop index i (a JS number --
it can become NaN or negative through the step update), the tested-element
count, the counting flag, the set of indices consumed by the random picker,
the ghost list of indices tested so far (most recent first), and the
position in the random stream. -/
structure TravSt where
  i : JNum
  count : Nat
  counting : Bool
  tested : List Int
  visited : List JQ
  rk : Nat

/-- The inner `while (true)` random picker: draw rr = floor(random() *
(length - count)), set i = count + rr, and accept when i < length and i was
not consumed before; otherwise retry.  Each retry consumes fuel; none means
the budget ran out (which, when count ≥ length, is guaranteed: rr is then
always ≤ 0... in fact length - count = 0 forces i = count = length). -/
def travPick (rnd : Nat → JQ) (len : JQ) (count : Nat) :
    Nat → List Int → Nat → Option (Int × List Int × Nat)
  | 0, _, _ => Option.none
  | f + 1, tested, rk =>
    let rr := jqFloor (jqMul (rnd rk) (jqSub len (jqN count)))
    let i : Int := (count : Int) + rr
    if jqLt (jqI i) len ∧ ¬ tested.any (fun x => x = i) then
      Option.some (i, i :: tested, rk + 1)
    else travPick rnd len count f tested (rk + 1)

/-- The `while (i < length)` loop of ArrayConstraint.test, with a step
budget.  Body order, exactly as in the source: (1) if counting, classify
and (vacuously, see travElemCheck) test value[i] and bump count; (2) for
last/firstThenLast, switch counting ON when i === thenCount -- note this
happens AFTER the element test of this iteration; (3) for firstThenLast,
switch counting OFF when i === firstCount; (4) break when count >=
firstCount and count >= firstCount + thenCount; (5) advance i by step when
isTruthy(step) -- which holds for EVERY number, 0 and NaN included -- and
otherwise (unreachably) draw from the random picker. -/
def travLoop (pf : Nat) (rnd : Nat → JQ) (ct : ElementCheckType)
    (fc tc stp : JNum) (xs : List JVal) (len : JQ) :
    Nat → TravSt → Option (Except String Unit × List JQ)
  | 0, _ => Option.none
  | lf + 1, st =>
    if jnLt st.i (JNum.v len) then
      let q := match st.i with
               | JNum.v q => q
               | JNum.nan => jqI 0
      let stepRes : Except String Unit × Nat × List JQ :=
        if st.counting then
          match travElemCheck pf (jvIndex xs q) with
          | Except.error m => (Except.error m, st.count, st.visited)
          | Except.ok _ => (Except.ok (), st.count + 1, q :: st.visited)
        else (Except.ok (), st.count, st.visited)
      match stepRes with
      | (Except.error m, _, vis) => Option.some (Except.error m, vis.reverse)
      | (Except.ok _, count1, vis1) =>
        let counting1 :=
          if (ct = ElementCheckType.last ∨ ct = ElementCheckType.firstThenLast) ∧
             jnStrictEq st.i tc then true
          else st.counting
        let counting2 :=
          if ct = ElementCheckType.firstThenLast ∧ jnStrictEq st.i fc then false
          else counting1
        if jnGe (JNum.v (jqN count1)) fc ∧
           jnGe (JNum.v (jqN count1)) (jnAdd fc tc) then
          Option.some (Except.ok (), vis1.reverse)
        else
          if jsIsTruthyNum stp then
            travLoop pf rnd ct fc tc stp xs len lf
              { i := jnAdd st.i stp, count := count1, counting := counting2,
                tested := st.tested, visited := vis1, rk := st.rk }
          else
            match travPick rnd len count1 lf st.tested st.rk with
            | Option.none => Option.none
            | Option.some (i2, tested2, rk2) =>
              travLoop pf rnd ct fc tc stp xs len lf
                { i := JNum.v (jqI i2), count := count1, counting := counting2,
                  tested := tested2, visited := vis1, rk := rk2 }
    else Option.some (Except.ok (), st.visited.reverse)

/-- The element-traversal tail of ArrayConstraint.test (always entered; see
ArrayConstraint.testRun). -/
def ArrayConstraint.traverse (pf lf : Nat) (rnd : Nat → JQ) (c : ArrayConstraint)
    (xs : List JVal) (len : JQ) : Option (Except String Unit × List JQ) :=
  let cfg := travConfig c.elementCheckType c.elementCheckParameter len
  travLoop pf rnd c.elementCheckType cfg.1 cfg.2.1 cfg.2.2.1 xs len lf
    { i := JNum.v (jqI 0), count := 0, counting := cfg.2.2.2,
      tested := [], visited := [], rk := 0 }

/-- Source: ArrayConstraint.test, instrumented to also report the ghost
list of indices whose elements the loop submitted to the per-element check
(in test order).  Rule order: Array.isArray type check, minLength,
maxLength, contains conflict, contains/notContains membership, then the
element traversal.  The traversal guard `isTruthy(this.elementConstraints)
|| isTruthy(this.elementCheckType)` is always true: elementConstraints
holds an array or Map object (always truthy) and elementCheckType is a
number (always truthy under the source's isTruthy, including the enum
value none = 0).  Likewise the `this.elementCheckType === undefined ? all :
...` selector always takes the field itself.  Returns none when the step
budget lf runs out. -/
def ArrayConstraint.testRun (pf lf : Nat) (rnd : Nat → JQ) (c : ArrayConstraint)
    (value : JVal) : Option (Except String Unit × List JQ) :=
  match value with
  | JVal.arr xs =>
    let len := jqN xs.length
    if jsTruthyOptJN c.minLength ∧
       jnLt (JNum.v len) (c.minLength.getD (JNum.v (jqI 0))) then
      Option.some (Except.error (rangeMsg (JNum.v len) (c.minLength.getD JNum.nan)
        "Array Length"), [])
    else if jsTruthyOptJN c.maxLength ∧
       jnGt (JNum.v len) (c.maxLength.getD (JNum.v (jqI 0))) then
      Option.some (Except.error (rangeMsg (JNum.v len) (c.maxLength.getD JNum.nan)
        "Array Length"), [])
    else if jsTruthyOptEV c.contains ∧ jsTruthyOptBool c.notContains then
      Option.some (Except.error (conflictMsg "contains"), [])
    else if jsTruthyOptEV c.contains ∨ jsTruthyOptBool c.notContains then
      let comp : CompV :=
        match c.contains with
        | Option.some e => CompV.ev e
        | Option.none =>
          match c.notContains with
          | Option.some b => CompV.bl b
          | Option.none => CompV.ev (EV.s "")
      let nt := jsTruthyOptBool c.notContains
      if xs.any (fun x => jvEqComp x comp) then
        (if nt then
          Option.some (Except.error (failMsg "!contains"
            (if (c.notContains.getD false) then "true" else "false")), [])
         else ArrayConstraint.traverse pf lf rnd c xs len)
      else
        (if ¬ nt then
          Option.some (Except.error (failMsg "contains"
            (match c.contains with
             | Option.some e => evToString e
             | Option.none => "undefined")), [])
         else ArrayConstraint.traverse pf lf rnd c xs len)
    else ArrayConstraint.traverse pf lf rnd c xs len
  | _ => Option.some (Except.error (basicTypeMsg value "array"), [])

/-- Dispatch `tc.test(value)` over the runtime value of the constraint
variable.  Calling .test on the boolean true (see Built.jsTrue) raises
'tc.test is not a function' (the V8 TypeError message), which validate's
catch turns into the returned string like any constraint violation. -/
def testBuilt (pf lf : Nat) (rnd : Nat → JQ) (b : Built) (v : JVal) :
    Option (Except String Unit) :=
  match b with
  | Built.num c => Option.some (NumberConstraint.test c v)
  | Built.str c => Option.some (StringConstraint.test c v)
  | Built.obj c => Option.some (ObjectConstraint.test c v)
  | Built.arr c => (ArrayConstraint.testRun pf lf rnd c v).map Prod.fst
  | Built.base c => Option.some (TypeConstraint.test c v)
  | Built.jsTrue => Option.some (Except.error "tc.test is not a function")

/-- Source: validate(value, constraintString).  Classifies the value by
typeof (promoting object to array via Array.isArray), parses, runs test
inside try/catch, and returns '' on success and the caught error's message
otherwise.  pf is the each-nesting budget of parseConstraints and lf the
step budget of the traversal loop; the result is none exactly when the
traversal loop exceeds lf steps, so `= none for every lf` states that the
source's validate never returns on that input. -/
def validate (pf lf : Nat) (rnd : Nat → JQ) (value : JVal)
    (constraintString : String) : Option String :=
  let t0 := jsTypeof value
  let ty := if t0 = "object" ∧ jvIsArray value then "array" else t0
  match parseConstraints pf ty constraintString with
  | Option.none => Option.some ""
  | Option.some tc =>
    match testBuilt pf lf rnd tc value with
    | Option.none => Option.none
    | Option.some (Except.ok _) => Option.some ""
    | Option.some (Except.error m) => Option.some m

/-- The deterministic random stream used to instantiate theorems (the
random-pick branch is unreachable, so its draws never matter). -/
def rnd0 : Nat → JQ := fun _ => ⟨0, 1⟩

/-- Shorthand: an integer-valued JS number value. -/
def jvInt (n : Int) : JVal := JVal.num ⟨n, 1⟩

/-- The array constraint parsed from
"each(number,positive,integer),checkType=first(2)" (the each map stores the
boolean true -- see EachV; elementCheckParameter2 is the stringified NaN
from parseCheckType's missing second parameter). -/
def c2First : ArrayConstraint :=
  { elementConstraints := [("number", EachV.tru)],
    elementCheckType := ElementCheckType.first,
    elementCheckParameter := "2", elementCheckParameter2 := "NaN" }

/-- The array constraint parsed from
"each(number,positive,integer),checkType=last(2)". -/
def c2Last : ArrayConstraint :=
  { elementConstraints := [("number", EachV.tru)],
    elementCheckType := ElementCheckType.last,
    elementCheckParameter := "2", elementCheckParameter2 := "NaN" }

/-- The array constraint parsed from
"each(number,positive,integer),checkType=firstThenLast(1,1)". -/
def c2Ftl : ArrayConstraint :=
  { elementConstraints := [("number", EachV.tru)],
    elementCheckType := ElementCheckType.firstThenLast,
    elementCheckParameter := "1", elementCheckParameter2 := "1" }

/-- The array constraint parsed from "checkType=random" (no parameter, so
elementCheckParameter is the empty string and parseInt of it is NaN). -/
def cRandomBare : ArrayConstraint :=
  { elementCheckType := ElementCheckType.random,
    elementCheckParameter := "", elementCheckParameter2 := "NaN" }

/-- The array constraint parsed from "checkType=firstThenRandom" (no
parameters). -/
def cFtrBare : ArrayConstraint :=
  { elementCheckType := ElementCheckType.firstThenRandom,
    elementCheckParameter := "", elementCheckParameter2 := "NaN" }

/-- The array constraint parsed from "checkType=step(-1)". -/
def cStepNeg : ArrayConstraint :=
  { elementCheckType := ElementCheckType.step,
    elementCheckParameter := "-1", elementCheckParameter2 := "NaN" }

/-- The array constraint parsed from "foobar": only the diagnostic badName
is set. -/
def cFoo : ArrayConstraint := { badName := Option.some "foobar" }

/-- The object constraint parsed from "empty". -/
def c10Empty : ObjectConstraint := { empty := true, notEmpty := false }

/-- The empty/notEmpty conflict guard of ObjectConstraint.test, negated:
NOT both fields truthy.  (isTruthy of these Bool fields is the field
itself.) -/
def emptyInv (c : ObjectConstraint) : Prop := ¬ (c.empty = true ∧ c.notEmpty = true)

/-- Invariant of the parser's constraint accumulator: whenever it holds an
ObjectConstraint, that constraint satisfies emptyInv. -/
def accInv : Option Built → Prop :=
  fun acc => ∀ c, acc = Option.some (Built.obj c) → emptyInv c

/-- accInv lifted over a single-token step result. -/
def stepInv : StepR → Prop
  | StepR.ret r => accInv r
  | StepR.cont b => accInv (Option.some b)

/-- parseConstraints of an empty block is undefined for every type and
every depth budget: the entry guard `if (!isTruthy(block) || ...)` returns
immediately. -/
theorem parseConstraints_empty_block (fuel : Nat) (t : String) :
    parseConstraints fuel t "" = Option.none := by
  cases fuel with
  | zero => rfl
  | succ n => simp [parseConstraints, parseMain, jsTruthyStr]

/-- The per-element check of the traversal loop always passes: the element
constraint is parsed from the empty string, so it is undefined and
`if (tc != null) tc.test(ev)` does nothing.  This underlies the C1
finding. -/
theorem travElemCheck_ok (pf : Nat) (ev : JVal) : travElemCheck pf ev = Except.ok () := by
  simp [travElemCheck, parseConstraints_empty_block]

/-- A Nat-valued count is ≥ the bound 0 under the JS comparison. -/
theorem jnGe_natZero (n : Nat) : jnGe (JNum.v (jqN n)) (JNum.v (jqI 0)) = true := by
  simp [jnGe, jqLe, jqN, jqI]

/-- For checkType none the traversal loop exits at its first break check
(count 0 ≥ firstCount 0 and ≥ firstCount + thenCount 0), testing nothing,
for every array and length. -/
theorem travLoop_none_exits (pf lf : Nat) (rnd : Nat → JQ) (xs : List JVal) (len : JQ) :
    travLoop pf rnd ElementCheckType.none (JNum.v (jqI 0)) (JNum.v (jqI 0))
      (JNum.v (jqI 1)) xs len (lf + 1)
      { i := JNum.v (jqI 0), count := 0, counting := false, tested := [],
        visited := [], rk := 0 } = Option.some (Except.ok (), []) := by
  unfold travLoop
  split
  · rfl
  · rfl

/-- On the singleton array [1] with checkType=random and no parameter
(thenCount = parseInt('') = NaN, step = 0), the traversal loop never
terminates: i stays 0 forever because isTruthy(0) is true so `i += step`
adds 0, and `count >= firstCount + thenCount` compares against NaN, which
is always false.  Stated as: the loop exhausts any step budget, for every
budget, count, and random stream. -/
theorem travLoop_random1_diverges (rnd : Nat → JQ) :
    ∀ lf count (tested : List Int) (vis : List JQ) rk,
      travLoop 9 rnd ElementCheckType.random (JNum.v (jqI 0)) JNum.nan
        (JNum.v (jqI 0)) [jvInt 1] (jqN 1) lf
        { i := JNum.v (jqI 0), count := count, counting := true, tested := tested,
          visited := vis, rk := rk } = Option.none := by
  intro lf
  induction lf with
  | zero => intro _ _ _ _; rfl
  | succ n ih =>
    intro count tested vis rk
    unfold travLoop
    simp only [travElemCheck_ok, jnGe_natZero, jnGe, jnAdd, jnLt, jnStrictEq,
      jsIsTruthyNum]
    exact ih (count + 1) tested (⟨0, 1⟩ :: vis) rk

/-- Same divergence for checkType=firstThenRandom without parameters on
[1, 2]: firstCount and thenCount are both NaN, `count >= firstCount` never
holds, and i += 0 never advances. -/
theorem travLoop_ftr_diverges (rnd : Nat → JQ) :
    ∀ lf count (tested : List Int) (vis : List JQ) rk,
      travLoop 9 rnd ElementCheckType.firstThenRandom JNum.nan JNum.nan
        (JNum.v (jqI 0)) [jvInt 1, jvInt 2] (jqN 2) lf
        { i := JNum.v (jqI 0), count := count, counting := true, tested := tested,
          visited := vis, rk := rk } = Option.none := by
  intro lf
  induction lf with
  | zero => intro _ _ _ _; rfl
  | succ n ih =>
    intro count tested vis rk
    unfold travLoop
    simp only [travElemCheck_ok, jnGe, jnAdd, jnLt, jnStrictEq, jsIsTruthyNum]
    exact ih (count + 1) tested (⟨0, 1⟩ :: vis) rk

/-- A badName-only array constraint (checkType none) accepts every array,
testing no element. -/
theorem testRun_foobar (xs : List JVal) :
    ArrayConstraint.testRun 9 (19 + 1) rnd0 cFoo (JVal.arr xs) =
      Option.some (Except.ok (), []) := by
  have e1 : ArrayConstraint.testRun 9 (19 + 1) rnd0 cFoo (JVal.arr xs) =
      ArrayConstraint.traverse 9 (19 + 1) rnd0 cFoo xs (jqN xs.length) := rfl
  have e2 : ArrayConstraint.traverse 9 (19 + 1) rnd0 cFoo xs (jqN xs.length) =
      travLoop 9 rnd0 ElementCheckType.none (JNum.v (jqI 0)) (JNum.v (jqI 0))
        (JNum.v (jqI 1)) xs (jqN xs.length) (19 + 1)
        { i := JNum.v (jqI 0), count := 0, counting := false, tested := [],
          visited := [], rk := 0 } := rfl
  rw [e1, e2, travLoop_none_exits 9 19 rnd0 xs (jqN xs.length)]

theorem accInv_obj {X : ObjectConstraint} (hX : emptyInv X) :
    accInv (Option.some (Built.obj X)) := fun _ hc => by cases hc; exact hX

theorem accInv_num (c : NumberConstraint) : accInv (Option.some (Built.num c)) :=
  fun _ hc => nomatch hc

theorem accInv_str (c : StringConstraint) : accInv (Option.some (Built.str c)) :=
  fun _ hc => nomatch hc

theorem accInv_arr (c : ArrayConstraint) : accInv (Option.some (Built.arr c)) :=
  fun _ hc => nomatch hc

theorem accInv_base (c : TypeConstraint) : accInv (Option.some (Built.base c)) :=
  fun _ hc => nomatch hc

theorem accInv_jsTrue : accInv (Option.some Built.jsTrue) := fun _ hc => nomatch hc

theorem accInv_none : accInv Option.none := fun _ hc => nomatch hc

/-- The `empty` token writes the complementary pair (empty, notEmpty) =
(!not, not), which never has both components true. -/
theorem emptyInv_pair (c0 : ObjectConstraint) (notf : Bool) :
    emptyInv { c0 with notEmpty := notf, empty := !notf } := by
  cases notf <;> simp [emptyInv]

theorem emptyInv_keep {c0 c1 : ObjectConstraint} (h : emptyInv c0)
    (he : c1.empty = c0.empty) (hn : c1.notEmpty = c0.notEmpty) : emptyInv c1 := by
  simp only [emptyInv, he, hn]
  exact h

/-- Every arm of the object switch preserves the empty/notEmpty invariant:
the `empty` arm writes a complementary pair and no other arm touches the
two fields. -/
theorem objStep_inv (e4 : String) (notf : Bool) (ev : Option EV) (c0 : ObjectConstraint)
    (h : emptyInv c0) : stepInv (objStep e4 notf ev c0) := by
  unfold objStep
  cases objKey e4
  case noc => exact accInv_obj h
  case empty => exact accInv_obj (emptyInv_pair c0 notf)
  case hasproperties => cases notf <;> exact accInv_obj (emptyInv_keep h rfl rfl)
  case notnested => exact accInv_obj (emptyInv_keep h rfl rfl)
  case noprototype => exact accInv_obj (emptyInv_keep h rfl rfl)
  case canserialize => exact accInv_obj (emptyInv_keep h rfl rfl)
  case notruthyprops => exact accInv_obj (emptyInv_keep h rfl rfl)
  case nofalseyprops => exact accInv_obj (emptyInv_keep h rfl rfl)
  case instanceof => cases notf <;> exact accInv_obj (emptyInv_keep h rfl rfl)
  case note => exact accInv_obj (emptyInv_keep h rfl rfl)
  case bad => exact accInv_obj (emptyInv_keep h rfl rfl)

theorem numStep_inv (e4 : String) (ev : Option EV) (c0 : NumberConstraint) :
    stepInv (numStep e4 ev c0) := by
  unfold numStep
  cases numKey e4 <;> exact accInv_num _

theorem strStep_inv (e4 : String) (notf : Bool) (ev : Option EV) (c0 : StringConstraint) :
    stepInv (strStep e4 notf ev c0) := by
  unfold strStep
  cases strKey e4
  case startswith => cases notf <;> exact accInv_str _
  case endswith => cases notf <;> exact accInv_str _
  case contains => cases notf <;> exact accInv_str _
  all_goals exact accInv_str _

theorem arrStep_inv (e4 : String) (notf : Bool) (ev : Option EV) (params : Option String)
    (c0 : ArrayConstraint) : stepInv (arrStep e4 notf ev params c0) := by
  unfold arrStep
  cases arrKey e4
  case contains => cases notf <;> exact accInv_arr _
  all_goals exact accInv_arr _

theorem defaultStep_inv (vt : ValueType) (e4 : String) (acc : Option Built) :
    stepInv (defaultStep vt e4 acc) := by
  unfold defaultStep
  split
  · exact accInv_none
  · cases acc
    · exact accInv_base _
    · exact accInv_jsTrue

theorem processOne_inv (vt : ValueType) (tp : Tok) (acc : Option Built)
    (h : accInv acc) : stepInv (processOne vt tp acc) := by
  cases vt with
  | number => exact numStep_inv _ _ _
  | string => exact strStep_inv _ _ _ _
  | array => exact arrStep_inv _ _ _ _ _
  | none => exact defaultStep_inv _ _ _
  | boolean => exact defaultStep_inv _ _ _
  | regex => exact defaultStep_inv _ _ _
  | object =>
    apply objStep_inv
    match acc with
    | Option.none => exact (by simp [emptyInv])
    | Option.some (Built.obj c) => exact h c rfl
    | Option.some (Built.num c) => exact (by simp [emptyInv])
    | Option.some (Built.str c) => exact (by simp [emptyInv])
    | Option.some (Built.arr c) => exact (by simp [emptyInv])
    | Option.some (Built.base c) => exact (by simp [emptyInv])
    | Option.some Built.jsTrue => exact (by simp [emptyInv])

/-- The expression loop preserves the accumulator invariant, early return
included. -/
theorem processTokens_inv (recur : String → String → Option Built) (vt : ValueType) :
    ∀ (toks : List String) (acc : Option Built), accInv acc →
      accInv (processTokens recur vt toks acc) := by
  intro toks
  induction toks with
  | nil => intro acc h; exact h
  | cons tk rest ih =>
    intro acc h
    unfold processTokens
    have hs := processOne_inv vt (tokenPrep recur tk) acc h
    cases hsr : processOne vt (tokenPrep recur tk) acc with
    | ret r => rw [hsr] at hs; exact hs
    | cont b => rw [hsr] at hs; exact ih (Option.some b) hs

/-- C1: Evaluation of the code at the claim's inputs.  For [1,2,3] with
"each(number,positive,integer),checkType=all" validate succeeds -- but it
ALSO succeeds after replacing an element with the negative number -2 or the
non-integer 2.5, because the traversal parses each element's sub-constraint
from the empty string (travElemCheck_ok) instead of consulting the
elementConstraints map (which eachListParse filled with booleans).  The
last two conjuncts show that the very element constraints, applied
directly, would report the element's specific numeric violation -- the
failure message the claim expects and validate never produces. -/
theorem claim_C1_element_constraints_never_applied :
    validate 9 20 rnd0 (JVal.arr [jvInt 1, jvInt 2, jvInt 3])
      "each(number,positive,integer),checkType=all" = Option.some "" ∧
    validate 9 20 rnd0 (JVal.arr [jvInt 1, jvInt (-2), jvInt 3])
      "each(number,positive,integer),checkType=all" = Option.some "" ∧
    validate 9 20 rnd0 (JVal.arr [jvInt 1, JVal.num ⟨5, 2⟩, jvInt 3])
      "each(number,positive,integer),checkType=all" = Option.some "" ∧
    validate 9 20 rnd0 (jvInt (-2)) "positive,integer" =
      Option.some "Constraint Error: Value -2 is not positive" ∧
    validate 9 20 rnd0 (JVal.num ⟨5, 2⟩) "positive,integer" =
      Option.some "Constraint Error: Value 2.5 is not an integer" :=
  ⟨rfl, rfl, rfl, rfl, rfl⟩

/-- C2: Evaluation of the traversal index sets on a length-5 array with
element checks enabled, for every choice of elements.  first(2) tests
indices [0,1] as the claim says; but last(2) tests only [4] (the counting
flag turns on when i reaches length-2 = 3 AFTER that iteration's test
slot), and firstThenLast(1,1) tests [0,1] (thenCount is derived from
parameter 1, parameter 2 is never read, and counting switches off only
after index 1 was already tested) -- the claim says {3,4} and {0,4}. -/
theorem claim_C2_traversal_index_sets :
    parseConstraints 9 "array" "each(number,positive,integer),checkType=first(2)" =
      Option.some (Built.arr c2First) ∧
    parseConstraints 9 "array" "each(number,positive,integer),checkType=last(2)" =
      Option.some (Built.arr c2Last) ∧
    parseConstraints 9 "array" "each(number,positive,integer),checkType=firstThenLast(1,1)" =
      Option.some (Built.arr c2Ftl) ∧
    ∀ a b c d e : JVal,
      ArrayConstraint.testRun 9 20 rnd0 c2First (JVal.arr [a, b, c, d, e]) =
        Option.some (Except.ok (), [⟨0, 1⟩, ⟨1, 1⟩]) ∧
      ArrayConstraint.testRun 9 20 rnd0 c2Last (JVal.arr [a, b, c, d, e]) =
        Option.some (Except.ok (), [⟨4, 1⟩]) ∧
      ArrayConstraint.testRun 9 20 rnd0 c2Ftl (JVal.arr [a, b, c, d, e]) =
        Option.some (Except.ok (), [⟨0, 1⟩, ⟨1, 1⟩]) :=
  ⟨rfl, rfl, rfl, fun _ _ _ _ _ => ⟨rfl, rfl, rfl⟩⟩

/-- C3: validate is NOT total: on the array [1] with constraint
"checkType=random" it never returns, for every step budget and every
random stream.  The missing parameter makes the traversal budget NaN, the
budget comparison `count >= firstCount + thenCount` is then always false,
and `i += step` adds step = 0 (the random-pick branch is unreachable since
the source's isTruthy(0) is true), so the while loop never exits. -/
theorem claim_C3_validate_diverges (lf : Nat) (rnd : Nat → JQ) :
    validate 9 lf rnd (JVal.arr [jvInt 1]) "checkType=random" = Option.none := by
  have hp : parseConstraints 9 "array" "checkType=random" =
      Option.some (Built.arr cRandomBare) := rfl
  simp only [validate, jsTypeof, jvIsArray]
  norm_num
  rw [hp]
  simp only [testBuilt]
  have e1 : ArrayConstraint.testRun 9 lf rnd cRandomBare (JVal.arr [jvInt 1]) =
      ArrayConstraint.traverse 9 lf rnd cRandomBare [jvInt 1] (jqN 1) := rfl
  have e2 : ArrayConstraint.traverse 9 lf rnd cRandomBare [jvInt 1] (jqN 1) =
      travLoop 9 rnd ElementCheckType.random (JNum.v (jqI 0)) JNum.nan
        (JNum.v (jqI 0)) [jvInt 1] (jqN 1) lf
        { i := JNum.v (jqI 0), count := 0, counting := true, tested := [],
          visited := [], rk := 0 } := rfl
  rw [e1, e2, travLoop_random1_diverges rnd lf 0 [] [] 0]
  rfl

/-- C4 counterexample: noconstraint does NOT neutralize directives that
appear BEFORE it in parse order.  The source's noconstraint case returns
the constraint built so far, so "positive,noconstraint" still carries
isPositive and validate(-5) fails with the positive violation instead of
succeeding. -/
theorem claim_C4_counterexample :
    validate 9 20 rnd0 (jvInt (-5)) "positive,noconstraint" =
      Option.some "Constraint Error: Value -5 is not positive" ∧
    validate 9 20 rnd0 (jvInt (-5)) "positive,noconstraint" ≠ Option.some "" :=
  ⟨rfl, fun h => absurd (Option.some.inj ((rfl : validate 9 20 rnd0 (jvInt (-5))
    "positive,noconstraint" =
      Option.some "Constraint Error: Value -5 is not positive").symm.trans h))
    (by decide)⟩

/-- C4 amended: when noconstraint is the FIRST directive, everything after
it is ignored and validate succeeds for every number value -- here with a
tail of directives every one of which would otherwise reject some numbers
(negative, integer, min=100). -/
theorem claim_C4_noconstraint_ignores_rest (q : JQ) :
    validate 9 20 rnd0 (JVal.num q) "noconstraint,negative,integer,min=100" =
      Option.some "" := rfl

/-- C5: Traversal bounds and termination both fail.  (i) With
checkType=step(-1) on [1,2,3] the loop visits indices 0, -1, -2 -- the
latter two outside [0, length) -- because parseInt accepts the negative
parameter and i decreases while still satisfying `i < length`.  (ii) With
checkType=firstThenRandom and no parameters on [1,2], validate never
returns, for every step budget and random stream (NaN budget, step 0), so
the traversal does not always terminate. -/
theorem claim_C5_bounds_and_termination :
    (parseConstraints 9 "array" "checkType=step(-1)" = Option.some (Built.arr cStepNeg) ∧
     ArrayConstraint.testRun 9 20 rnd0 cStepNeg (JVal.arr [jvInt 1, jvInt 2, jvInt 3]) =
       Option.some (Except.ok (), [⟨0, 1⟩, ⟨-1, 1⟩, ⟨-2, 1⟩])) ∧
    ∀ (lf : Nat) (rnd : Nat → JQ),
      validate 9 lf rnd (JVal.arr [jvInt 1, jvInt 2]) "checkType=firstThenRandom" =
        Option.none := by
  refine ⟨⟨rfl, rfl⟩, fun lf rnd => ?_⟩
  have hp : parseConstraints 9 "array" "checkType=firstThenRandom" =
      Option.some (Built.arr cFtrBare) := rfl
  simp only [validate, jsTypeof, jvIsArray]
  norm_num
  rw [hp]
  simp only [testBuilt]
  have e1 : ArrayConstraint.testRun 9 lf rnd cFtrBare (JVal.arr [jvInt 1, jvInt 2]) =
      ArrayConstraint.traverse 9 lf rnd cFtrBare [jvInt 1, jvInt 2] (jqN 2) := rfl
  have e2 : ArrayConstraint.traverse 9 lf rnd cFtrBare [jvInt 1, jvInt 2] (jqN 2) =
      travLoop 9 rnd ElementCheckType.firstThenRandom JNum.nan JNum.nan
        (JNum.v (jqI 0)) [jvInt 1, jvInt 2] (jqN 2) lf
        { i := JNum.v (jqI 0), count := 0, counting := true, tested := [],
          visited := [], rk := 0 } := rfl
  rw [e1, e2, travLoop_ftr_diverges rnd lf 0 [] [] 0]
  rfl

/-- C6: A surrounding quote pair is NOT stripped before processing, and
quoted and unquoted constraint strings are not equivalent: on the string
"f", "minLength=2" fails with the length range violation while the quoted
forms succeed, because the opening quote adheres to the keyword (the
parsed constraint is badName-only, as the last conjunct shows) and
unrecognized keywords never fail. -/
theorem claim_C6_quotes_not_stripped :
    validate 9 20 rnd0 (JVal.str "f") "minLength=2" =
      Option.some "Constraint Error: String Length 1 is less than range minimum of 2" ∧
    validate 9 20 rnd0 (JVal.str "f") "'minLength=2'" = Option.some "" ∧
    validate 9 20 rnd0 (JVal.str "f") "\"minLength=2\"" = Option.some "" ∧
    parseConstraints 9 "string" "'minLength=2'" =
      Option.some (Built.str { badName := Option.some "'minlength" }) :=
  ⟨rfl, rfl, rfl, rfl⟩

/-- C7: Numeric bounds are inclusive for min and max and exclusive for
maxx: under "min=5,max=10" the values 4 and 11 fail with range violations
naming the violated bound (5 resp. 10) and the direction, while 5, 7 and
10 succeed; under "maxx=10" the value 10 fails while 9.999 succeeds. -/
theorem claim_C7_numeric_bounds :
    validate 9 20 rnd0 (jvInt 4) "min=5,max=10" =
      Option.some "Constraint Error: Number 4 is less than range minimum of 5" ∧
    validate 9 20 rnd0 (jvInt 11) "min=5,max=10" =
      Option.some "Constraint Error: Number 11 exceeds range maximum of 10" ∧
    validate 9 20 rnd0 (jvInt 5) "min=5,max=10" = Option.some "" ∧
    validate 9 20 rnd0 (jvInt 7) "min=5,max=10" = Option.some "" ∧
    validate 9 20 rnd0 (jvInt 10) "min=5,max=10" = Option.some "" ∧
    validate 9 20 rnd0 (jvInt 10) "maxx=10" =
      Option.some "Constraint Error: Number 10 exceeds range maximum of 10" ∧
    validate 9 20 rnd0 (JVal.num ⟨9999, 1000⟩) "maxx=10" = Option.some "" :=
  ⟨rfl, rfl, rfl, rfl, rfl, rfl, rfl⟩

/-- C8: For EVERY string value, "startsWith=ab,!startsWith=cd" makes
validate return the directive-conflict message -- the result does not
depend on the value at all, so no prefix content is ever consulted
(strings starting with "ab" or with "cd" get the same conflict). -/
theorem claim_C8_conflict_before_content (s : String) :
    validate 9 20 rnd0 (JVal.str s) "startsWith=ab,!startsWith=cd" =
      Option.some "Constraint Error: Both startsWith and !startsWith declared" := rfl

/-- C9 counterexample: the claim's "for any value of any type" fails for
undefined.  typeof undefined is 'undefined', which valueTypeFromString
classifies as object, and the resulting ObjectConstraint's base-type check
then rejects the value although no directive failed -- so "foobar" on
undefined yields a failure. -/
theorem claim_C9_counterexample :
    validate 9 20 rnd0 JVal.undef "foobar" =
      Option.some "Constraint Error: Incorrect type undefined, (object expected) undefined" ∧
    validate 9 20 rnd0 JVal.undef "foobar" ≠ Option.some "" :=
  ⟨rfl, fun h => absurd (Option.some.inj ((rfl : validate 9 20 rnd0 JVal.undef "foobar" =
      Option.some "Constraint Error: Incorrect type undefined, (object expected) undefined").symm.trans h))
    (by decide)⟩

/-- C9 amended: an unrecognized keyword is retained as badName and never
itself fails: validate "foobar" succeeds for every number, string,
boolean, plain object, array, and for null (every value whose runtime type
classification matches the built constraint's base type; undefined is the
exception, see the counterexample) -- and the evaluators never read
badName: the last three conjuncts show each variant's test result is
unchanged under any badName. -/
theorem claim_C9_badName_never_fails :
    (∀ q : JQ, validate 9 20 rnd0 (JVal.num q) "foobar" = Option.some "") ∧
    (∀ s : String, validate 9 20 rnd0 (JVal.str s) "foobar" = Option.some "") ∧
    (∀ b : Bool, validate 9 20 rnd0 (JVal.bool b) "foobar" = Option.some "") ∧
    (∀ ps : List (String × JVal), validate 9 20 rnd0 (JVal.obj ps) "foobar" = Option.some "") ∧
    (∀ xs : List JVal, validate 9 20 rnd0 (JVal.arr xs) "foobar" = Option.some "") ∧
    validate 9 20 rnd0 JVal.null "foobar" = Option.some "" ∧
    (∀ (c : NumberConstraint) (bn : Option String) (v : JVal),
      NumberConstraint.test { c with badName := bn } v = NumberConstraint.test c v) ∧
    (∀ (c : StringConstraint) (bn : Option String) (v : JVal),
      StringConstraint.test { c with badName := bn } v = StringConstraint.test c v) ∧
    (∀ (c : ObjectConstraint) (bn : Option String) (v : JVal),
      ObjectConstraint.test { c with badName := bn } v = ObjectConstraint.test c v) := by
  refine ⟨fun q => rfl, fun s => rfl, fun b => rfl, fun ps => rfl, fun xs => ?_,
    rfl, fun c bn v => rfl, fun c bn v => rfl, fun c bn v => rfl⟩
  have hp : parseConstraints 9 "array" "foobar" = Option.some (Built.arr cFoo) := rfl
  simp only [validate, jsTypeof, jvIsArray]
  norm_num
  rw [hp]
  simp only [testBuilt]
  rw [testRun_foobar xs]
  rfl

/-- C10: every ObjectConstraint the parser builds -- for any type string,
any constraint block, and any recursion budget -- has at most one of
empty/notEmpty truthy, because each occurrence of the `empty` keyword
assigns the complementary pair (empty, notEmpty) = (!not, not).  The
statement is exactly the negation of the guard of the empty/notEmpty
conflict branch of ObjectConstraint.test, so that branch is unreachable
through validate (which only tests parser-built constraints). -/
theorem claim_C10_empty_pair_invariant (fuel : Nat) (ty block : String)
    (c : ObjectConstraint)
    (hp : parseConstraints fuel ty block = Option.some (Built.obj c)) :
    ¬ (c.empty = true ∧ c.notEmpty = true) := by
  cases fuel with
  | zero => exact absurd hp (by simp [parseConstraints])
  | succ n =>
    rw [parseConstraints] at hp
    unfold parseMain at hp
    by_cases hg : (¬ jsTruthyStr block ∨ ¬ jsTruthyStr ty)
    · rw [if_pos hg] at hp
      exact absurd hp (by simp)
    · rw [if_neg hg] at hp
      exact processTokens_inv (parseConstraints n) (valueTypeFromString ty)
        (jsSplitChar (parenProtect (jsTrim block)) ',') Option.none accInv_none c hp

/-- C10 witness: the invariant applied to the concrete parse of "empty"
for the object type, whose result is the complementary pair
(empty, notEmpty) = (true, false). -/
theorem claim_C10_witness :
    ¬ (c10Empty.empty = true ∧ c10Empty.notEmpty = true) :=
  claim_C10_empty_pair_invariant 9 "object" "empty" c10Empty (by rfl)
